import Mathlib

/-!
Verification development for the employee-attendance dashboard
(`dashboard.py`): a shallow embedding of its data-normalization and
aggregation pipeline, together with theorems settling the spec claims.

Modelling conventions (shared by all definitions below):
* a pandas DataFrame is a `RawTable`: an ordered list of column names
  plus a list of rows; a row is an association list from column name to
  `Cell`, and a column absent from a row reads as `Cell.null` (pandas
  NaN/None; the NaN/None distinction is collapsed into `Cell.null`);
* assigning a column value (`df[c] = v`) prepends the binding, so the
  latest assignment shadows earlier ones, as in pandas;
* the tolerant date parser `pd.to_datetime(..., errors="coerce")` is
  modelled on ISO `YYYY-MM-DD` strings, mapped to a rata-die day number
  (`toRD`); any other string fails to parse, as does `Cell.null`;
* `random` draws are re-expressed over an explicit seeded generator
  (`lcg`), one draw per call site, in the source's call order.
-/

namespace StudentViz

/-- A single dataframe cell: missing (`null`), text, integer-valued
numeric, or a parsed calendar date given as a rata-die day number. -/
inductive Cell where
  | null : Cell
  | str : String → Cell
  | int : Int → Cell
  | date : Nat → Cell
deriving DecidableEq, Repr

abbrev Col := String

/-- A dataframe row: an association list from column name to cell. -/
abbrev Row := List (Col × Cell)

/-- Reading a cell: the first binding for the column, `null` if absent
(pandas reads a never-assigned column of a row as missing). -/
def getCell : Row → Col → Cell
  | [], _ => Cell.null
  | (c, v) :: r, c' => if c = c' then v else getCell r c'

/-- Writing a cell (`df.loc[row, c] = v` / building a dict row): prepend,
so the new binding shadows any previous one. -/
def setCell (r : Row) (c : Col) (v : Cell) : Row := (c, v) :: r

/-- A dataframe: ordered column list plus rows. -/
structure RawTable where
  cols : List Col
  rows : List Row
deriving DecidableEq, Repr

/-- Rows only bind columns that the table declares — true of any table
produced by pandas, where rows cannot carry stray columns. -/
def WellFormed (t : RawTable) : Prop :=
  ∀ r ∈ t.rows, ∀ p ∈ r, p.1 ∈ t.cols

instance (t : RawTable) : Decidable (WellFormed t) := by
  unfold WellFormed; infer_instance

/-- EXPECTED_COLUMNS of dashboard.py lines 10-35, in source order. -/
def EXPECTED_COLUMNS : List Col :=
  [ "Sr. No.", "EmpID", "Attendance Code", "FName", "Branch Code",
    "Department Name", "Division Name", "ReportingEmpCode",
    "ReportingEmpName", "Grade Code", "Designation Name",
    "Direct/Indirect", "Roster", "Auto Shift Name", "Date of Joining",
    "Attendance Date", "In Time", "Out Time", "Total Hours", "OT Hours",
    "Late Hours", "Application Status", "Final Status",
    "Attendance Type" ]

/- ----------------------------------------------------------------
   Calendar arithmetic (pandas Timestamps are modelled as rata-die day
   numbers; `toRD` is the standard days-from-civil computation, valid
   for years ≥ 1, counting days from 0000-03-01).
   ---------------------------------------------------------------- -/

def isLeap (y : Nat) : Bool := (y % 4 == 0 && y % 100 != 0) || y % 400 == 0

def daysInMonth (y m : Nat) : Nat :=
  if m = 2 then (if isLeap y then 29 else 28)
  else if m = 4 ∨ m = 6 ∨ m = 9 ∨ m = 11 then 30 else 31

/-- Days-from-civil: rata-die day number of year/month/day. -/
def toRD (y m d : Nat) : Nat :=
  let y' := if m ≤ 2 then y - 1 else y
  let era := y' / 400
  let yoe := y' % 400
  let mp := (m + 9) % 12
  let doy := (153 * mp + 2) / 5 + d - 1
  let doe := yoe * 365 + yoe / 4 - yoe / 100 + doy
  era * 146097 + doe

/-- Civil-from-days, inverse of `toRD`: (year, month, day). -/
def civilFromRD (z : Nat) : Nat × Nat × Nat :=
  let era := z / 146097
  let doe := z % 146097
  let yoe := (doe - doe / 1460 + doe / 36524 - doe / 146096) / 365
  let y := yoe + era * 400
  let doy := doe - (365 * yoe + yoe / 4 - yoe / 100)
  let mp := (5 * doy + 2) / 153
  let d := doy - (153 * mp + 2) / 5 + 1
  let m := if mp < 10 then mp + 3 else mp - 9
  (if m ≤ 2 then y + 1 else y, m, d)

/-- Weekday of a rata-die day, Python convention (Monday = 0); chosen so
that 1970-01-01 (rata die 719468) is a Thursday (3). Saturday/Sunday are
`≥ 5`. -/
def weekdayOf (rd : Nat) : Nat := (rd + 2) % 7

/-- Digits of a decimal numeral, or `none` if empty / non-digit. -/
def digitsToNat : List Char → Option Nat
  | [] => none
  | cs =>
    if cs.all (fun c => c.isDigit) then
      some (cs.foldl (fun n c => 10 * n + (c.toNat - 48)) 0)
    else none

/-- Split a character list on `-`. -/
def splitDash (cs : List Char) : List (List Char) :=
  let step := fun (acc : List (List Char) × List Char) (c : Char) =>
    if c = '-' then (acc.1 ++ [acc.2], []) else (acc.1, acc.2 ++ [c])
  let fin := cs.foldl step ([], [])
  fin.1 ++ [fin.2]

/-- The tolerant date parser of `pd.to_datetime(..., errors="coerce")`,
modelled on ISO `YYYY-MM-DD` strings: yields the rata-die day number if
the string is a valid calendar date, `none` otherwise. -/
def parseYMD (s : String) : Option Nat :=
  match splitDash s.data with
  | [ys, ms, ds] =>
    match digitsToNat ys, digitsToNat ms, digitsToNat ds with
    | some y, some m, some d =>
      if 1 ≤ y ∧ 1 ≤ m ∧ m ≤ 12 ∧ 1 ≤ d ∧ d ≤ daysInMonth y m then
        some (toRD y m d)
      else none
    | _, _, _ => none
  | _ => none

/-- `pd.to_datetime` applied to one cell: already-parsed dates pass
through, strings go through the parser, anything else coerces to NaT. -/
def parseDateCell : Cell → Option Nat
  | Cell.date n => some n
  | Cell.str s => parseYMD s
  | _ => none

/- ----------------------------------------------------------------
   Schema Normalizer: preprocess_data (dashboard.py lines 45-68).
   ---------------------------------------------------------------- -/

/-- Keep only the bindings of a row whose column passes `q`. -/
def keepRow (q : Col → Bool) (r : Row) : Row := r.filter (fun p => q p.1)

/-- Line 47: `df = df[[col for col in df.columns if col in
EXPECTED_COLUMNS]]` — drop the non-schema columns, keeping input
order. -/
def keepExpected (t : RawTable) : RawTable :=
  { cols := t.cols.filter (fun c => decide (c ∈ EXPECTED_COLUMNS)),
    rows := t.rows.map
      (keepRow (fun c => decide (c ∈ EXPECTED_COLUMNS) && decide (c ∈ t.cols))) }

/-- Lines 50-52: append each expected column missing from the input as an
all-empty column (rows read it as `null`). -/
def addMissing (t : RawTable) : RawTable :=
  { cols := t.cols ++ EXPECTED_COLUMNS.filter (fun c => decide (c ∉ t.cols)),
    rows := t.rows }

/-- `astype(str)` on one cell: missing values stringify too (pandas turns
NaN/None into the strings "nan"/"None"; the model uses "nan"). -/
def strCell : Cell → Cell
  | Cell.null => Cell.str "nan"
  | Cell.str s => Cell.str s
  | Cell.int n => Cell.str (toString n)
  | Cell.date n => Cell.str (toString n)

/-- Lines 55-57: coerce "Attendance Code", "Roster", "EmpID" to strings,
in source order. -/
def astypeRow (r : Row) : Row :=
  setCell
    (setCell
      (setCell r "Attendance Code" (strCell (getCell r "Attendance Code")))
      "Roster" (strCell (getCell r "Roster")))
    "EmpID" (strCell (getCell r "EmpID"))

def astypeT (t : RawTable) : RawTable :=
  { cols := t.cols, rows := t.rows.map astypeRow }

/-- Line 60: parse the "Attendance Date" column; failures become NaT. -/
def parseRow (r : Row) : Row :=
  setCell r "Attendance Date"
    (match parseDateCell (getCell r "Attendance Date") with
     | some n => Cell.date n
     | none => Cell.null)

def parseT (t : RawTable) : RawTable :=
  { cols := t.cols, rows := t.rows.map parseRow }

/-- Does the row hold a successfully parsed attendance date? -/
def dateOKRow (r : Row) : Bool :=
  match getCell r "Attendance Date" with
  | Cell.date _ => true
  | _ => false

/-- Line 63: `dropna(subset=["Attendance Date"])`. -/
def dropnaT (t : RawTable) : RawTable :=
  { cols := t.cols, rows := t.rows.filter dateOKRow }

/-- Is the cell textual? -/
def isStrCell : Cell → Bool
  | Cell.str _ => true
  | _ => false

/-- Pandas dtype test used by line 66's fill dict: a column is
object-typed iff it holds a string, or holds only missing values (as a
column synthesized by `df[col] = None` does). Purely numeric or datetime
columns are not object-typed. -/
def colIsObject (rows : List Row) (c : Col) : Bool :=
  rows.any (fun r => isStrCell (getCell r c)) ||
    rows.all (fun r => decide (getCell r c = Cell.null))

/-- The per-column fill value of line 66: "Unknown" for object columns,
0 for the rest. -/
def fillValue (rows : List Row) (c : Col) : Cell :=
  if colIsObject rows c then Cell.str "Unknown" else Cell.int 0

/-- Lines 65-67, one row: replace each missing expected-column value by
the column's fill value (the fill dict is computed once, from `rows`). -/
def fillRow (rows : List Row) (r : Row) : Row :=
  EXPECTED_COLUMNS.foldl
    (fun r' c => if getCell r' c = Cell.null then setCell r' c (fillValue rows c) else r')
    r

def fillnaT (t : RawTable) : RawTable :=
  { cols := t.cols, rows := t.rows.map (fillRow t.rows) }

/-- preprocess_data, dashboard.py lines 45-68: keep schema columns,
add missing ones, stringify identifier columns, parse the attendance
date, drop unparseable rows, fill remaining missing values. -/
def preprocess_data (t : RawTable) : RawTable :=
  fillnaT (dropnaT (parseT (astypeT (addMissing (keepExpected t)))))

/- ----------------------------------------------------------------
   Basic row/cell lemmas.
   ---------------------------------------------------------------- -/

theorem getCell_setCell (r : Row) (c c' : Col) (v : Cell) :
    getCell (setCell r c v) c' = if c = c' then v else getCell r c' := rfl

theorem getCell_setCell_same (r : Row) (c : Col) (v : Cell) :
    getCell (setCell r c v) c = v := by simp [getCell_setCell]

theorem getCell_setCell_ne (r : Row) {c c' : Col} (v : Cell) (h : c ≠ c') :
    getCell (setCell r c v) c' = getCell r c' := by simp [getCell_setCell, h]

theorem getCell_keepRow (q : Col → Bool) (r : Row) (c : Col) :
    getCell (keepRow q r) c = if q c then getCell r c else Cell.null := by
  induction r with
  | nil => simp [keepRow, getCell]
  | cons p r ih =>
    obtain ⟨c₀, v⟩ := p
    by_cases hq : q c₀
    · by_cases hc : c₀ = c
      · subst hc
        simp [keepRow, hq, getCell] at ih ⊢
      · simpa [keepRow, hq, getCell, hc] using ih
    · by_cases hc : c₀ = c
      · subst hc
        simp only [keepRow, List.filter_cons, hq] at ih ⊢
        simp [ih, hq]
      · simpa [keepRow, hq, getCell, hc] using ih

theorem getCell_eq_null_of_keys (r : Row) (cols : List Col) (c : Col)
    (hk : ∀ p ∈ r, p.1 ∈ cols) (hc : c ∉ cols) : getCell r c = Cell.null := by
  induction r with
  | nil => rfl
  | cons p r ih =>
    obtain ⟨c₀, v⟩ := p
    have h₀ : c₀ ∈ cols := hk (c₀, v) (by simp)
    have hne : c₀ ≠ c := fun h => hc (h ▸ h₀)
    simp only [getCell, hne, if_false]
    exact ih (fun p hp => hk p (by simp [hp]))

theorem getCell_astypeRow_of_ne (r : Row) (c : Col)
    (h1 : c ≠ "Attendance Code") (h2 : c ≠ "Roster") (h3 : c ≠ "EmpID") :
    getCell (astypeRow r) c = getCell r c := by
  simp [astypeRow, getCell_setCell, (Ne.symm h1), (Ne.symm h2), (Ne.symm h3)]

theorem getCell_parseRow_date (r : Row) :
    getCell (parseRow r) "Attendance Date" =
      (match parseDateCell (getCell r "Attendance Date") with
       | some n => Cell.date n
       | none => Cell.null) := by
  simp [parseRow, getCell_setCell]

theorem getCell_parseRow_of_ne (r : Row) (c : Col) (h : c ≠ "Attendance Date") :
    getCell (parseRow r) c = getCell r c := by
  simp [parseRow, getCell_setCell, Ne.symm h]

/- ----------------------------------------------------------------
   Fill-step lemmas: the fillna fold only turns nulls into the
   (never-null) per-column fill value.
   ---------------------------------------------------------------- -/

theorem fillValue_ne_null (rows : List Row) (c : Col) :
    fillValue rows c ≠ Cell.null := by
  unfold fillValue
  by_cases h : colIsObject rows c <;> simp [h]

/-- A non-null cell passes through the fill fold unchanged. -/
theorem getCell_fillFold_of_ne_null (rows : List Row) (l : List Col) (r : Row)
    (c : Col) (h : getCell r c ≠ Cell.null) :
    getCell (l.foldl (fun r' c' =>
      if getCell r' c' = Cell.null then setCell r' c' (fillValue rows c') else r') r) c
    = getCell r c := by
  induction l generalizing r with
  | nil => rfl
  | cons c₁ l ih =>
    simp only [List.foldl_cons]
    by_cases h₁ : getCell r c₁ = Cell.null
    · have hne : c₁ ≠ c := fun hEq => h (hEq ▸ h₁)
      simp only [h₁, if_true]
      rw [ih _ (by rwa [getCell_setCell_ne r _ hne]), getCell_setCell_ne r _ hne]
    · simp only [h₁, if_false]
      exact ih r h

/-- A column processed by the fill fold ends up at its fill value when it
was null, and otherwise keeps its value. -/
theorem getCell_fillFold_mem (rows : List Row) (l : List Col) (r : Row)
    (c : Col) (hc : c ∈ l) :
    getCell (l.foldl (fun r' c' =>
      if getCell r' c' = Cell.null then setCell r' c' (fillValue rows c') else r') r) c
    = (if getCell r c = Cell.null then fillValue rows c else getCell r c) := by
  induction l generalizing r with
  | nil => cases hc
  | cons c₁ l ih =>
    simp only [List.foldl_cons]
    by_cases hcc : c₁ = c
    · subst hcc
      by_cases h₁ : getCell r c₁ = Cell.null
      · simp only [h₁, if_true]
        rw [getCell_fillFold_of_ne_null rows l _ c₁
            (by rw [getCell_setCell_same]; exact fillValue_ne_null rows c₁),
          getCell_setCell_same]
      · simp only [h₁, if_false]
        exact getCell_fillFold_of_ne_null rows l r c₁ h₁
    · have hc' : c ∈ l := by
        cases hc with
        | head => exact absurd rfl hcc
        | tail _ h => exact h
      by_cases h₁ : getCell r c₁ = Cell.null
      · simp only [h₁, if_true]
        rw [ih _ hc', getCell_setCell_ne r _ hcc]
      · simp only [h₁, if_false]
        exact ih r hc'

theorem getCell_fillRow_of_ne_null (rows : List Row) (r : Row) (c : Col)
    (h : getCell r c ≠ Cell.null) : getCell (fillRow rows r) c = getCell r c :=
  getCell_fillFold_of_ne_null rows EXPECTED_COLUMNS r c h

theorem getCell_fillRow_mem (rows : List Row) (r : Row) (c : Col)
    (hc : c ∈ EXPECTED_COLUMNS) :
    getCell (fillRow rows r) c =
      (if getCell r c = Cell.null then fillValue rows c else getCell r c) :=
  getCell_fillFold_mem rows EXPECTED_COLUMNS r c hc

theorem getCell_fillRow_ne_null (rows : List Row) (r : Row) (c : Col)
    (hc : c ∈ EXPECTED_COLUMNS) : getCell (fillRow rows r) c ≠ Cell.null := by
  rw [getCell_fillRow_mem rows r c hc]
  by_cases h : getCell r c = Cell.null
  · simpa [h] using fillValue_ne_null rows c
  · simp [h]

/- ----------------------------------------------------------------
   The row pipeline of preprocess_data, spelled out.
   ---------------------------------------------------------------- -/

/-- The column-keeping predicate of line 47 for an input table. -/
def keepPred (t : RawTable) (c : Col) : Bool :=
  decide (c ∈ EXPECTED_COLUMNS) && decide (c ∈ t.cols)

/-- The pre-drop transformation each row undergoes (lines 47-60). -/
def prepRowOf (t : RawTable) (r : Row) : Row :=
  parseRow (astypeRow (keepRow (keepPred t) r))

theorem preprocess_rows_eq (t : RawTable) :
    (preprocess_data t).rows =
      (let kept := (t.rows.map (prepRowOf t)).filter dateOKRow
       kept.map (fillRow kept)) := by
  simp only [preprocess_data, fillnaT, dropnaT, parseT, astypeT, addMissing,
    keepExpected, List.map_map]
  rfl

/-- A row passes the date filter exactly when its attendance-date cell is
a parsed date. -/
theorem dateOKRow_iff (r : Row) :
    dateOKRow r = true ↔ ∃ n, getCell r "Attendance Date" = Cell.date n := by
  unfold dateOKRow
  cases h : getCell r "Attendance Date" <;> simp

/-- Whether a row of the final table came from an input row is decided by
date parsability of the input's attendance-date field alone. -/
theorem dateOK_prepRow (t : RawTable) (hWF : WellFormed t) (r : Row)
    (hr : r ∈ t.rows) :
    dateOKRow (prepRowOf t r)
      = (parseDateCell (getCell r "Attendance Date")).isSome := by
  have hE : decide (("Attendance Date" : String) ∈ EXPECTED_COLUMNS) = true := by
    decide
  have hx : getCell (astypeRow (keepRow (keepPred t) r)) "Attendance Date"
      = getCell (keepRow (keepPred t) r) "Attendance Date" :=
    getCell_astypeRow_of_ne _ _ (by decide) (by decide) (by decide)
  by_cases hAD : "Attendance Date" ∈ t.cols
  · have hq : keepPred t "Attendance Date" = true := by
      simp [keepPred, hE, hAD]
    have hcell : getCell (keepRow (keepPred t) r) "Attendance Date"
        = getCell r "Attendance Date" := by
      rw [getCell_keepRow, hq]; simp
    cases hp : parseDateCell (getCell r "Attendance Date") with
    | some n =>
      simp [prepRowOf, dateOKRow, getCell_parseRow_date, hx, hcell, hp]
    | none =>
      simp [prepRowOf, dateOKRow, getCell_parseRow_date, hx, hcell, hp]
  · have hq : keepPred t "Attendance Date" = false := by
      simp [keepPred, hAD]
    have hcell : getCell (keepRow (keepPred t) r) "Attendance Date"
        = Cell.null := by
      rw [getCell_keepRow, hq]; simp
    have hnull : getCell r "Attendance Date" = Cell.null :=
      getCell_eq_null_of_keys r t.cols _ (hWF r hr) hAD
    simp [prepRowOf, dateOKRow, getCell_parseRow_date, hx, hcell, hnull,
      parseDateCell]

/- ----------------------------------------------------------------
   Claim scenario tables.
   ---------------------------------------------------------------- -/

/-- Input whose columns are schema columns out of canonical order. -/
def C1table : RawTable := { cols := ["EmpID", "Sr. No."], rows := [] }

/-- Input holding the single row
`{EmpID: "", FinalStatus: null, AttendanceDate: "not-a-date"}`. -/
def C2table : RawTable :=
  { cols := ["EmpID", "Final Status", "Attendance Date"],
    rows := [[("EmpID", Cell.str ""), ("Final Status", Cell.null),
              ("Attendance Date", Cell.str "not-a-date")]] }

/-- Input holding the single row
`{EmpID: "EMP1", FinalStatus: null, AttendanceDate: "2024-01-05"}`. -/
def C3table : RawTable :=
  { cols := ["EmpID", "Final Status", "Attendance Date"],
    rows := [[("EmpID", Cell.str "EMP1"), ("Final Status", Cell.null),
              ("Attendance Date", Cell.str "2024-01-05")]] }

/-- Input holding a row with a negative Total Hours value. -/
def C9table : RawTable :=
  { cols := ["EmpID", "Total Hours", "Attendance Date"],
    rows := [[("EmpID", Cell.str "E1"), ("Total Hours", Cell.int (-5)),
              ("Attendance Date", Cell.str "2024-01-05")]] }

/-- Input holding a row with non-negative hour values. -/
def C9posTable : RawTable :=
  { cols := ["EmpID", "Total Hours", "Attendance Date"],
    rows := [[("EmpID", Cell.str "E1"), ("Total Hours", Cell.int 3),
              ("Attendance Date", Cell.str "2024-01-05")]] }

/- ----------------------------------------------------------------
   C1 — output column set and order.
   ---------------------------------------------------------------- -/

/-- C1 counterexample: on input columns ["EmpID", "Sr. No."] (schema
columns, reversed), the normalized table's columns are not in the
canonical ExpectedSchema order — line 47 keeps the input's column order
and lines 50-52 append the missing columns at the end. -/
theorem schema_cols_order_counterexample :
    (preprocess_data C1table).cols ≠ EXPECTED_COLUMNS := by decide

/-- C1 amended: for every input table with distinct column names, the
normalized output's columns are exactly the ExpectedSchema columns (a
permutation of the schema, each exactly once), ordered as: the input's
schema columns in input order, then the schema columns missing from the
input in schema order — not necessarily the canonical order. -/
theorem schema_cols_exact_set_not_canonical_order (t : RawTable)
    (h : t.cols.Nodup) :
    (preprocess_data t).cols =
      t.cols.filter (fun c => decide (c ∈ EXPECTED_COLUMNS)) ++
        EXPECTED_COLUMNS.filter (fun c => decide (c ∉ t.cols)) ∧
    (preprocess_data t).cols.Perm EXPECTED_COLUMNS := by
  have hEnd : EXPECTED_COLUMNS.Nodup := by decide
  have hcols : (preprocess_data t).cols =
      t.cols.filter (fun c => decide (c ∈ EXPECTED_COLUMNS)) ++
        EXPECTED_COLUMNS.filter
          (fun c => decide (c ∉ t.cols.filter (fun c' => decide (c' ∈ EXPECTED_COLUMNS)))) := rfl
  have hfix : EXPECTED_COLUMNS.filter
      (fun c => decide (c ∉ t.cols.filter (fun c' => decide (c' ∈ EXPECTED_COLUMNS))))
      = EXPECTED_COLUMNS.filter (fun c => decide (c ∉ t.cols)) := by
    apply List.filter_congr
    intro c hcE
    simp [List.mem_filter, hcE]
  have heq : (preprocess_data t).cols =
      t.cols.filter (fun c => decide (c ∈ EXPECTED_COLUMNS)) ++
        EXPECTED_COLUMNS.filter (fun c => decide (c ∉ t.cols)) := by
    rw [hcols, hfix]
  refine ⟨heq, ?_⟩
  rw [heq]
  have h1 : (t.cols.filter (fun c => decide (c ∈ EXPECTED_COLUMNS))).Perm
      (EXPECTED_COLUMNS.filter (fun c => decide (c ∈ t.cols))) := by
    rw [List.perm_ext_iff_of_nodup (h.filter _) (hEnd.filter _)]
    intro c
    simp only [List.mem_filter, decide_eq_true_eq]
    exact ⟨fun ⟨a, b⟩ => ⟨b, a⟩, fun ⟨a, b⟩ => ⟨b, a⟩⟩
  have h2 := List.filter_append_perm
    (fun c => decide (c ∈ t.cols)) EXPECTED_COLUMNS
  have hfun : (fun c => !decide (c ∈ t.cols)) = (fun c => decide (c ∉ t.cols)) := by
    funext c; simp
  rw [hfun] at h2
  exact (h1.append_right _).trans h2

/-- C1 witness: the amended statement holds at the concrete reversed-order
input. -/
theorem schema_cols_exact_set_witness :
    (preprocess_data C1table).cols =
      C1table.cols.filter (fun c => decide (c ∈ EXPECTED_COLUMNS)) ++
        EXPECTED_COLUMNS.filter (fun c => decide (c ∉ C1table.cols)) ∧
    (preprocess_data C1table).cols.Perm EXPECTED_COLUMNS :=
  schema_cols_exact_set_not_canonical_order C1table (by decide)

/- ----------------------------------------------------------------
   C2 — date validity and the one row-level filter.
   ---------------------------------------------------------------- -/

/-- C2: for every well-formed input table, every normalized row's
attendance date is a successfully parsed calendar date, and the number
of output rows equals the number of input rows whose attendance-date
field parses — so exactly the unparseable-date rows are dropped and no
other row-level filtering happens; zero parseable rows give an empty
table, not an error. -/
theorem normalized_dates_valid_and_only_unparseable_dropped (t : RawTable)
    (hWF : WellFormed t) :
    (∀ r ∈ (preprocess_data t).rows, dateOKRow r = true) ∧
    (preprocess_data t).rows.length =
      t.rows.countP (fun r => (parseDateCell (getCell r "Attendance Date")).isSome) := by
  constructor
  · intro r hr
    rw [preprocess_rows_eq] at hr
    simp only [List.mem_map] at hr
    obtain ⟨r', hr', rfl⟩ := hr
    have hok : dateOKRow r' = true := (List.mem_filter.mp hr').2
    obtain ⟨n, hn⟩ := (dateOKRow_iff r').mp hok
    have hpres := getCell_fillRow_of_ne_null
      ((t.rows.map (prepRowOf t)).filter dateOKRow) r' "Attendance Date"
      (by rw [hn]; intro hcon; cases hcon)
    exact (dateOKRow_iff _).mpr ⟨n, hpres.trans hn⟩
  · rw [preprocess_rows_eq]
    simp only [List.length_map]
    rw [← List.countP_eq_length_filter, List.countP_map]
    apply List.countP_congr
    intro r hr
    simp only [Function.comp]
    rw [dateOK_prepRow t hWF r hr]

/-- C2 witness: at the concrete table whose only row has attendance date
"not-a-date", the row is dropped and the normalized table is empty. -/
theorem normalized_dates_witness : (preprocess_data C2table).rows.length = 0 :=
  ((normalized_dates_valid_and_only_unparseable_dropped C2table
    (by decide)).2).trans (by decide)

/- ----------------------------------------------------------------
   C3 — missing-value defaults.
   ---------------------------------------------------------------- -/

/-- C3 counterexample: for the row
`{EmpID: "EMP1", FinalStatus: null, AttendanceDate: "2024-01-05"}` the
normalizer fills Final Status with the generic textual default "Unknown",
not the field-specific "Pending" the claim asserts — lines 65-67 use only
the kind-based default map and define no field-specific defaults. -/
theorem final_status_pending_counterexample :
    (preprocess_data C3table).rows.map (fun r => getCell r "Final Status")
      = [Cell.str "Unknown"] ∧
    Cell.str "Unknown" ≠ Cell.str "Pending" := by
  constructor
  · decide
  · decide

/-- C3 amended: every missing value of every kept row is filled purely by
the column's kind, by one generic rule common to all fields: the
normalized rows correspond pairwise to the surviving parsed rows, and for
each expected column the normalized cell equals the parsed cell when it
is present, and otherwise "Unknown" when the column is object-typed
(textual) and 0 when it is numeric — the fill value never depends on the
field's name, so there are no field-specific defaults. Hence no expected
column of a normalized row is missing, and the scenario row
`{EmpID: "EMP1", FinalStatus: null, AttendanceDate: "2024-01-05"}` is
kept with EmpID unchanged and Final Status = "Unknown", not "Pending". -/
theorem fill_defaults_kind_based (t : RawTable) :
    List.Forall₂
      (fun r' r => ∀ c ∈ EXPECTED_COLUMNS,
        getCell r c =
          (if getCell r' c = Cell.null then
            (if colIsObject ((t.rows.map (prepRowOf t)).filter dateOKRow) c
             then Cell.str "Unknown" else Cell.int 0)
           else getCell r' c))
      ((t.rows.map (prepRowOf t)).filter dateOKRow)
      (preprocess_data t).rows ∧
    (∀ r ∈ (preprocess_data t).rows, ∀ c ∈ EXPECTED_COLUMNS,
      getCell r c ≠ Cell.null) ∧
    (preprocess_data C3table).rows.map
      (fun r => (getCell r "EmpID", getCell r "Final Status"))
      = [(Cell.str "EMP1", Cell.str "Unknown")] := by
  refine ⟨?_, ?_, ?_⟩
  · simp only [preprocess_rows_eq]
    rw [List.forall₂_map_right_iff, List.forall₂_same]
    intro r' _ c hc
    rw [getCell_fillRow_mem _ r' c hc]
    rfl
  · intro r hr c hc
    rw [preprocess_rows_eq] at hr
    simp only [List.mem_map] at hr
    obtain ⟨r', _, rfl⟩ := hr
    exact getCell_fillRow_ne_null _ r' c hc
  · decide

/-- C3 witness: the no-missing-values statement applied at the scenario
table's surviving row and its Final Status column. -/
theorem fill_defaults_kind_based_witness :
    getCell ((preprocess_data C3table).rows.headD []) "Final Status"
      ≠ Cell.null :=
  (fill_defaults_kind_based C3table).2.1
    ((preprocess_data C3table).rows.headD []) (by decide)
    "Final Status" (by decide)

/- ----------------------------------------------------------------
   C9 — hour fields and negativity.
   ---------------------------------------------------------------- -/

/-- The numeric hour columns of the schema. -/
def hourCols : List Col := ["Total Hours", "OT Hours", "Late Hours"]

/-- An input hour cell that is either missing or a non-negative number. -/
def hourCellOK (x : Cell) : Prop :=
  x = Cell.null ∨ ∃ n : Int, x = Cell.int n ∧ 0 ≤ n

theorem hourCellOK_not_str {x : Cell} (h : hourCellOK x) :
    isStrCell x = false := by
  rcases h with h | ⟨n, h, _⟩ <;> rw [h] <;> rfl

/-- C9 counterexample: an input row carrying Total Hours = −5 and a valid
attendance date survives normalization with its negative value intact —
lines 65-67 only replace missing values, they never clamp or reject
negative hour values. -/
theorem hour_fields_negative_counterexample :
    (preprocess_data C9table).rows.map (fun r => getCell r "Total Hours")
      = [Cell.int (-5)] ∧ ¬ (0 : Int) ≤ -5 := by
  constructor
  · decide
  · decide

/-- C9 amended: hour fields are non-negative after normalization only
conditionally: when every supplied hour value of the input is missing or
a non-negative number, each normalized hour cell is a non-negative number
(missing values become 0) — or the textual default "Unknown" when the
whole column is empty. Negative supplied values are passed through, so
the unconditional claim fails. -/
theorem hour_fields_nonneg_conditional (t : RawTable)
    (h : ∀ r ∈ t.rows, ∀ c ∈ hourCols, hourCellOK (getCell r c)) :
    ∀ r ∈ (preprocess_data t).rows, ∀ c ∈ hourCols,
      (∃ n : Int, getCell r c = Cell.int n ∧ 0 ≤ n) ∨
        getCell r c = Cell.str "Unknown" := by
  intro r hr c hc
  have hcs : c = "Total Hours" ∨ c = "OT Hours" ∨ c = "Late Hours" := by
    simpa [hourCols] using hc
  have hside : c ∈ EXPECTED_COLUMNS ∧ c ≠ "Attendance Code" ∧ c ≠ "Roster" ∧
      c ≠ "EmpID" ∧ c ≠ "Attendance Date" := by
    rcases hcs with h' | h' | h' <;> subst h' <;>
      exact ⟨by decide, by decide, by decide, by decide, by decide⟩
  obtain ⟨hcE, hne1, hne2, hne3, hne4⟩ := hside
  rw [preprocess_rows_eq] at hr
  simp only [List.mem_map] at hr
  obtain ⟨r', hr', rfl⟩ := hr
  set kept := (t.rows.map (prepRowOf t)).filter dateOKRow with hkept
  have hKeptOK : ∀ x ∈ kept, hourCellOK (getCell x c) := by
    intro x hx
    have hx' : x ∈ t.rows.map (prepRowOf t) := (List.mem_filter.mp hx).1
    simp only [List.mem_map] at hx'
    obtain ⟨r₀, hr₀, rfl⟩ := hx'
    have hcell : getCell (prepRowOf t r₀) c = getCell (keepRow (keepPred t) r₀) c := by
      unfold prepRowOf
      rw [getCell_parseRow_of_ne _ _ hne4, getCell_astypeRow_of_ne _ _ hne1 hne2 hne3]
    rw [hcell, getCell_keepRow]
    by_cases hq : keepPred t c = true
    · rw [hq]; simpa using h r₀ hr₀ c hc
    · simp only [Bool.not_eq_true] at hq
      rw [hq]
      simp [hourCellOK]
  have hm := getCell_fillRow_mem kept r' c hcE
  by_cases hnull : getCell r' c = Cell.null
  · rw [hm, if_pos hnull]
    have hNoStr : kept.any (fun x => isStrCell (getCell x c)) = false := by
      rw [List.any_eq_false]
      intro x hx
      simp [hourCellOK_not_str (hKeptOK x hx)]
    unfold fillValue colIsObject
    rw [hNoStr, Bool.false_or]
    by_cases hall : kept.all (fun x => decide (getCell x c = Cell.null)) = true
    · rw [hall]; right; simp
    · simp only [Bool.not_eq_true] at hall
      rw [hall]; left; exact ⟨0, by simp, le_refl 0⟩
  · rw [hm, if_neg hnull]
    rcases hKeptOK r' hr' with h' | ⟨n, h', hn⟩
    · exact absurd h' hnull
    · exact Or.inl ⟨n, h', hn⟩

/-- C9 witness: the conditional statement applied at an input whose hour
values are non-negative. -/
theorem hour_fields_nonneg_witness :
    (∃ n : Int,
        getCell ((preprocess_data C9posTable).rows.headD []) "Total Hours"
          = Cell.int n ∧ 0 ≤ n) ∨
      getCell ((preprocess_data C9posTable).rows.headD []) "Total Hours"
        = Cell.str "Unknown" :=
  hour_fields_nonneg_conditional C9posTable
    (by
      intro r hr c hc
      simp only [C9posTable, List.mem_singleton] at hr
      subst hr
      simp only [hourCols, List.mem_cons, List.not_mem_nil, or_false] at hc
      rcases hc with h | h | h <;> subst h
      · exact Or.inr ⟨3, by decide, by decide⟩
      · exact Or.inl (by decide)
      · exact Or.inl (by decide))
    ((preprocess_data C9posTable).rows.headD []) (by decide)
    "Total Hours" (by decide)

/- ----------------------------------------------------------------
   Date-window filtering (dashboard.py lines 197-227).
   ---------------------------------------------------------------- -/

/-- The attendance date of a normalized row, as a rata-die number (all
normalized rows carry a parsed date; other cells read as day 0). -/
def dateRD (r : Row) : Nat :=
  match getCell r "Attendance Date" with
  | Cell.date n => n
  | _ => 0

/-- Lines 210-221: the window start for a named period, measured backward
from the maximum attendance date (the "Daily" period takes explicit user
input instead and is not modelled). -/
def periodStartRD (p : String) (maxRD : Nat) : Nat :=
  if p = "Weekly" then maxRD - 30
  else if p = "Monthly" then maxRD - 90
  else if p = "Quarterly" then maxRD - 180
  else maxRD - 365

/-- The [start, end] window of a named period: lookback start, max date. -/
def periodWindow (p : String) (maxRD : Nat) : Nat × Nat :=
  (periodStartRD p maxRD, maxRD)

/-- Lines 226-227: keep rows whose attendance date lies in the inclusive
window. -/
def dateFilterRows (s e : Nat) (rows : List Row) : List Row :=
  rows.filter (fun r => decide (s ≤ dateRD r) && decide (dateRD r ≤ e))

/-- C7: selecting "Weekly" sets the window to the inclusive range ending
at the maximum attendance date — with max date 2024-06-30 the window is
[2024-05-31, 2024-06-30] (line 211's 30-day lookback) — and the date
filter keeps a row exactly when start ≤ date ≤ end. -/
theorem weekly_window_and_inclusive_date_filter :
    periodWindow "Weekly" (toRD 2024 6 30) = (toRD 2024 5 31, toRD 2024 6 30) ∧
    ∀ (s e : Nat) (rows : List Row) (r : Row),
      r ∈ dateFilterRows s e rows ↔ r ∈ rows ∧ s ≤ dateRD r ∧ dateRD r ≤ e := by
  constructor
  · decide
  · intro s e rows r
    simp [dateFilterRows, List.mem_filter, and_assoc]

/- ----------------------------------------------------------------
   Categorical filtering (dashboard.py lines 261-272) and the
   deduplicated skill headcount (lines 439-440).
   ---------------------------------------------------------------- -/

/-- The six sidebar filter selections; "All" is the no-constraint
sentinel. -/
structure FilterSettings where
  department : String
  division : String
  direct : String
  skill : String
  employment : String
  shift : String
deriving DecidableEq, Repr

/-- One `if sel != "All": df = df[df[c] == sel]` step. -/
def maybeFilter (sel : String) (c : Col) (rows : List Row) : List Row :=
  if sel = "All" then rows
  else rows.filter (fun r => decide (getCell r c = Cell.str sel))

/-- Lines 261-272: the six equality filters applied in source order. -/
def applyFilters (f : FilterSettings) (rows : List Row) : List Row :=
  maybeFilter f.shift "Auto Shift Name"
    (maybeFilter f.employment "Employment Type"
      (maybeFilter f.skill "Skill Level"
        (maybeFilter f.direct "Direct/Indirect"
          (maybeFilter f.division "Division Name"
            (maybeFilter f.department "Department Name" rows)))))

/-- A row satisfies one filter dimension: the sentinel or an equal value. -/
def matchesFilter (sel : String) (c : Col) (r : Row) : Prop :=
  sel = "All" ∨ getCell r c = Cell.str sel

theorem mem_maybeFilter (sel : String) (c : Col) (rows : List Row) (r : Row) :
    r ∈ maybeFilter sel c rows ↔ r ∈ rows ∧ matchesFilter sel c r := by
  unfold maybeFilter matchesFilter
  by_cases h : sel = "All" <;> simp [h, List.mem_filter]

/-- First occurrences of a list, in order — pandas `unique()`. -/
def uniqFirst {α : Type} [DecidableEq α] : List α → List α
  | [] => []
  | x :: xs => x :: (uniqFirst xs).filter (fun y => decide (y ≠ x))

theorem mem_of_mem_uniqFirst {α : Type} [DecidableEq α] {x : α} :
    ∀ {l : List α}, x ∈ uniqFirst l → x ∈ l := by
  intro l
  induction l with
  | nil => intro h; cases h
  | cons a l ih =>
    intro h
    simp only [uniqFirst] at h
    rcases List.mem_cons.mp h with h | h
    · exact List.mem_cons.mpr (Or.inl h)
    · exact List.mem_cons.mpr (Or.inr (ih (List.mem_of_mem_filter h)))

/-- `drop_duplicates("EmpID")`: keep each EmpID's first row. -/
def dropDupByEmp (rows : List Row) : List Row :=
  (rows.foldl
    (fun acc r =>
      if getCell r "EmpID" ∈ acc.2 then acc
      else (acc.1 ++ [r], getCell r "EmpID" :: acc.2))
    (([], []) : List Row × List Cell)).1

/-- `value_counts()` over a cell list: each distinct value with its
multiplicity, first-occurrence order (pandas sorts by count; only the
multiset of pairs matters to the claims). -/
def valueCounts (l : List Cell) : List (Cell × Nat) :=
  (uniqFirst l).map (fun v => (v, l.count v))

/-- Lines 439-440: deduplicated-by-EmpID skill-level headcounts. -/
def skill_distribution (rows : List Row) : List (Cell × Nat) :=
  valueCounts ((dropDupByEmp rows).map (fun r => getCell r "Skill Level"))

def sumCounts (l : List (Cell × Nat)) : Nat := (l.map Prod.snd).sum

/-- Five employees: three at L1 and two at L2. -/
def C8rows : List Row :=
  [ [("EmpID", Cell.str "E1"), ("Skill Level", Cell.str "L1"),
     ("Department Name", Cell.str "Production")],
    [("EmpID", Cell.str "E2"), ("Skill Level", Cell.str "L1"),
     ("Department Name", Cell.str "Production")],
    [("EmpID", Cell.str "E3"), ("Skill Level", Cell.str "L1"),
     ("Department Name", Cell.str "Quality")],
    [("EmpID", Cell.str "E4"), ("Skill Level", Cell.str "L2"),
     ("Department Name", Cell.str "Production")],
    [("EmpID", Cell.str "E5"), ("Skill Level", Cell.str "L2"),
     ("Department Name", Cell.str "Quality")] ]

/-- Department "All", Skill Level "L2", everything else unconstrained. -/
def C8filters : FilterSettings :=
  { department := "All", division := "All", direct := "All",
    skill := "L2", employment := "All", shift := "All" }

/-- C8: a row survives the six categorical filters exactly when it
matches every dimension whose selection is not the sentinel "All"
(logical AND); and the scenario — filters {Department: "All",
Skill Level: "L2"} on a table of three L1 and two L2 employees — yields a
deduplicated skill headcount summing to 2. -/
theorem categorical_filters_conjunction_and_headcount :
    (∀ (f : FilterSettings) (rows : List Row) (r : Row),
      r ∈ applyFilters f rows ↔ r ∈ rows ∧
        matchesFilter f.department "Department Name" r ∧
        matchesFilter f.division "Division Name" r ∧
        matchesFilter f.direct "Direct/Indirect" r ∧
        matchesFilter f.skill "Skill Level" r ∧
        matchesFilter f.employment "Employment Type" r ∧
        matchesFilter f.shift "Auto Shift Name" r) ∧
    sumCounts (skill_distribution (applyFilters C8filters C8rows)) = 2 := by
  constructor
  · intro f rows r
    unfold applyFilters
    rw [mem_maybeFilter, mem_maybeFilter, mem_maybeFilter, mem_maybeFilter,
      mem_maybeFilter, mem_maybeFilter]
    tauto
  · decide

/- ----------------------------------------------------------------
   C10 — the Employee Statistics view reads the full table
   (dashboard.py lines 222-224, 226-227, 261-272, 371-432).
   ---------------------------------------------------------------- -/

def cellInt : Cell → Int
  | Cell.int n => n
  | _ => 0

/-- Insertion into a list sorted by first component. -/
def insertByFst {α : Type} (x : Nat × α) : List (Nat × α) → List (Nat × α)
  | [] => [x]
  | y :: ys => if x.1 ≤ y.1 then x :: y :: ys else y :: insertByFst x ys

/-- `sort_values` by the Nat first component. -/
def sortByFst {α : Type} (l : List (Nat × α)) : List (Nat × α) :=
  l.foldr insertByFst []

/-- The `%Y-%m` bucket of a date: (year, month). -/
def monthKey (rd : Nat) : Nat × Nat :=
  ((civilFromRD rd).1, (civilFromRD rd).2.1)

def maxDateRD (rows : List Row) : Nat := (rows.map dateRD).foldr Nat.max 0

def minDateRD (rows : List Row) : Nat :=
  match rows.map dateRD with
  | [] => 0
  | x :: xs => xs.foldr Nat.min x

/-- Line 373: the selected employee's rows, from the full table. -/
def employee_df (rows : List Row) (emp : String) : List Row :=
  rows.filter (fun r => decide (getCell r "EmpID" = Cell.str emp))

/-- Lines 389-390: per-date first final status, date-ordered. -/
def attendanceHistory (erows : List Row) : List (Nat × Cell) :=
  sortByFst ((uniqFirst (erows.map dateRD)).map (fun d =>
    (d, getCell ((erows.filter (fun r => decide (dateRD r = d))).headD [])
          "Final Status")))

/-- Lines 410-411: month-bucketed final-status tallies. -/
def monthlySummary (erows : List Row) : List ((Nat × Nat) × List (Cell × Nat)) :=
  (uniqFirst (erows.map (fun r => monthKey (dateRD r)))).map (fun mo =>
    (mo, valueCounts
      ((erows.filter (fun r => decide (monthKey (dateRD r) = mo))).map
        (fun r => getCell r "Final Status"))))

/-- Lines 423-424: per-date overtime-hour sums, date-ordered. -/
def overtimeTrend (erows : List Row) : List (Nat × Int) :=
  sortByFst ((uniqFirst (erows.map dateRD)).map (fun d =>
    (d, ((erows.filter (fun r => decide (dateRD r = d))).map
          (fun r => cellInt (getCell r "OT Hours"))).sum)))

/-- The three per-employee outputs of the Employee Statistics view. -/
structure EmployeeView where
  history : List (Nat × Cell)
  monthly : List ((Nat × Nat) × List (Cell × Nat))
  overtime : List (Nat × Int)
deriving DecidableEq, Repr

/-- One Employee Statistics session pass: the sidebar still computes
`filtered_df` (full date range, lines 222-227, then the categorical
filters, lines 261-272 — it feeds the Detailed Data View), but the
employee view itself is computed from the full table `df` (line 373). -/
def employeeStatsPass (df : List Row) (f : FilterSettings) (emp : String) :
    EmployeeView × List Row :=
  let filtered := applyFilters f (dateFilterRows (minDateRD df) (maxDateRD df) df)
  let erows := employee_df df emp
  (⟨attendanceHistory erows, monthlySummary erows, overtimeTrend erows⟩,
    filtered)

/-- C10: the per-employee view (attendance history, monthly summary,
overtime trend) is computed from the full table, so two session passes
that differ only in the categorical filter settings produce identical
per-employee output for the same selected EmpID. -/
theorem employee_view_independent_of_filters (df : List Row)
    (f₁ f₂ : FilterSettings) (emp : String) :
    (employeeStatsPass df f₁ emp).1 = (employeeStatsPass df f₂ emp).1 := rfl

/- ----------------------------------------------------------------
   C4 — absenteeism rates (dashboard.py lines 570-583 and 586-598).
   ---------------------------------------------------------------- -/

def statusCell (r : Row) : Cell := getCell r "Final Status"

/-- Whether the "Absent" status occurs at all — exactly the
`if "Absent" in <grouped>.columns` test, since the unstacked columns are
the statuses occurring anywhere in the filtered table. -/
def hasAbsent (rows : List Row) : Bool :=
  rows.any (fun r => decide (statusCell r = Cell.str "Absent"))

/-- `groupby(key)`: each occurring key with its rows (key order is
first-occurrence; pandas sorts keys, but only the groups matter here). -/
def groupRows (key : Row → Cell) (rows : List Row) : List (Cell × List Row) :=
  (uniqFirst (rows.map key)).map
    (fun k => (k, rows.filter (fun r => decide (key r = k))))

/-- Lines 572/588: Absent count over total row count of the group × 100
(the row-sum denominator of `.sum(axis=1)` is the group size, since the
per-group status counts sum to it). -/
def absentRate (g : List Row) : ℚ :=
  ((g.countP (fun r => decide (statusCell r = Cell.str "Absent")) : ℚ)
      / (g.length : ℚ)) * 100

/-- Lines 570-571: the per-date rates, or `none` when no Absent row
exists (the chart is not computed then). -/
def dailyAbsenteeism (rows : List Row) : Option (List (Cell × ℚ)) :=
  if hasAbsent rows then
    some ((groupRows (fun r => getCell r "Attendance Date") rows).map
      (fun p => (p.1, absentRate p.2)))
  else none

/-- Lines 586-587: the per-department rates, or `none` when no Absent row
exists. -/
def deptAbsenteeism (rows : List Row) : Option (List (Cell × ℚ)) :=
  if hasAbsent rows then
    some ((groupRows (fun r => getCell r "Department Name") rows).map
      (fun p => (p.1, absentRate p.2)))
  else none

/-- An element rendered to the page: a chart or a text message. -/
inductive ViewElem where
  | chart : String → ViewElem
  | message : String → ViewElem
deriving DecidableEq, Repr

/-- The two absenteeism sections of the Attendance Trends view, lines
567-598: the daily section renders a chart or an explicit no-data
message (if/else, lines 571-583); the department section renders a chart
or nothing at all (if without else, lines 587-598). -/
def absenteeismSections (rows : List Row) : List ViewElem :=
  (match dailyAbsenteeism rows with
   | some _ => [ViewElem.chart "Daily Absenteeism Rate (%)"]
   | none => [ViewElem.message "No absence data available for the selected period."]) ++
  (match deptAbsenteeism rows with
   | some _ => [ViewElem.chart "Absenteeism Rate by Department (%)"]
   | none => [])

theorem groupRows_snd_ne_nil (key : Row → Cell) (rows : List Row)
    (p : Cell × List Row) (hp : p ∈ groupRows key rows) : p.2 ≠ [] := by
  unfold groupRows at hp
  simp only [List.mem_map] at hp
  obtain ⟨k, hk, rfl⟩ := hp
  have hk' : k ∈ rows.map key := mem_of_mem_uniqFirst hk
  simp only [List.mem_map] at hk'
  obtain ⟨r, hr, rfl⟩ := hk'
  intro hnil
  have hmem : r ∈ rows.filter (fun r' => decide (key r' = key r)) :=
    List.mem_filter.mpr ⟨hr, by simp⟩
  have hnil' : rows.filter (fun r' => decide (key r' = key r)) = [] := hnil
  rw [hnil'] at hmem
  cases hmem

theorem absentRate_bounds (g : List Row) (hg : g ≠ []) :
    0 ≤ absentRate g ∧ absentRate g ≤ 100 := by
  have hlen : 0 < g.length := List.length_pos.mpr hg
  have hlenQ : (0 : ℚ) < (g.length : ℚ) := by exact_mod_cast hlen
  have hcnt : (g.countP (fun r => decide (statusCell r = Cell.str "Absent")) : ℚ)
      ≤ (g.length : ℚ) := by exact_mod_cast List.countP_le_length _
  have hcnt0 : (0 : ℚ) ≤
      (g.countP (fun r => decide (statusCell r = Cell.str "Absent")) : ℚ) := by
    exact_mod_cast Nat.zero_le _
  constructor
  · exact mul_nonneg (div_nonneg hcnt0 (le_of_lt hlenQ)) (by norm_num)
  · have hdiv : (g.countP (fun r => decide (statusCell r = Cell.str "Absent")) : ℚ)
        / (g.length : ℚ) ≤ 1 := (div_le_one hlenQ).mpr hcnt
    calc absentRate g
        ≤ 1 * 100 := mul_le_mul_of_nonneg_right hdiv (by norm_num)
      _ = 100 := one_mul 100

/-- A table with a single Present row (no Absent anywhere). -/
def C4rows : List Row :=
  [ [("Final Status", Cell.str "P"), ("Department Name", Cell.str "Production"),
     ("Attendance Date", Cell.date 739000), ("EmpID", Cell.str "E1")] ]

/-- A table containing an Absent row. -/
def C4wrows : List Row :=
  [ [("Final Status", Cell.str "Absent"),
     ("Department Name", Cell.str "Production"),
     ("Attendance Date", Cell.date 739000), ("EmpID", Cell.str "E1")],
    [("Final Status", Cell.str "P"), ("Department Name", Cell.str "Production"),
     ("Attendance Date", Cell.date 739000), ("EmpID", Cell.str "E2")] ]

/-- C4 counterexample: on a slice with no Absent rows, the department
absenteeism view is not "explicitly reported as unavailable" — it is
silently omitted (the rendered sections hold only the daily view's
message; lines 587-598 have no else-branch), refuting the claim's
universal explicit-report clause. -/
theorem dept_absence_silent_counterexample :
    deptAbsenteeism C4rows = none ∧
    absenteeismSections C4rows =
      [ViewElem.message "No absence data available for the selected period."] := by
  constructor
  · rfl
  · rfl

/-- C4 amended: whenever the Absent category is present, every computed
daily or departmental absenteeism rate equals Absent-count / total-count
× 100 and lies in [0, 100] (no NaN, no division error); when Absent is
entirely absent, neither rate is computed — the daily view explicitly
reports no data, while the department view is silently omitted. -/
theorem absenteeism_rate_bounds_and_no_absent_behavior (rows : List Row) :
    (∀ l, dailyAbsenteeism rows = some l → ∀ p ∈ l, 0 ≤ p.2 ∧ p.2 ≤ 100) ∧
    (∀ l, deptAbsenteeism rows = some l → ∀ p ∈ l, 0 ≤ p.2 ∧ p.2 ≤ 100) ∧
    (hasAbsent rows = false →
      dailyAbsenteeism rows = none ∧ deptAbsenteeism rows = none ∧
      absenteeismSections rows =
        [ViewElem.message "No absence data available for the selected period."]) := by
  refine ⟨?_, ?_, ?_⟩
  · intro l hl p hp
    unfold dailyAbsenteeism at hl
    by_cases habs : hasAbsent rows
    · rw [if_pos habs] at hl
      obtain rfl := Option.some.inj hl.symm
      simp only [List.mem_map] at hp
      obtain ⟨q, hq, rfl⟩ := hp
      exact absentRate_bounds q.2 (groupRows_snd_ne_nil _ rows q hq)
    · rw [if_neg habs] at hl
      cases hl
  · intro l hl p hp
    unfold deptAbsenteeism at hl
    by_cases habs : hasAbsent rows
    · rw [if_pos habs] at hl
      obtain rfl := Option.some.inj hl.symm
      simp only [List.mem_map] at hp
      obtain ⟨q, hq, rfl⟩ := hp
      exact absentRate_bounds q.2 (groupRows_snd_ne_nil _ rows q hq)
    · rw [if_neg habs] at hl
      cases hl
  · intro habs
    have h1 : dailyAbsenteeism rows = none := by
      unfold dailyAbsenteeism; rw [habs]; rfl
    have h2 : deptAbsenteeism rows = none := by
      unfold deptAbsenteeism; rw [habs]; rfl
    refine ⟨h1, h2, ?_⟩
    unfold absenteeismSections
    rw [h1, h2]
    rfl

/-- The single date group of `C4wrows` (both rows share the date). -/
def C4group : List Row :=
  C4wrows.filter (fun r => decide (getCell r "Attendance Date" = Cell.date 739000))

/-- C4 witness: on a concrete slice containing an Absent row, the
computed daily rate of its date group is within [0, 100]. -/
theorem absenteeism_rate_bounds_witness :
    0 ≤ absentRate C4group ∧ absentRate C4group ≤ 100 :=
  (absenteeism_rate_bounds_and_no_absent_behavior C4wrows).1
    [(Cell.date 739000, absentRate C4group)] rfl
    (Cell.date 739000, absentRate C4group) (List.mem_singleton.mpr rfl)

/- ----------------------------------------------------------------
   C5 — the demo-data fallback (dashboard.py lines 183, 677-764).
   ---------------------------------------------------------------- -/

/-- Line 678's banner for a raised exception. -/
def errorBanner (m : String) : String :=
  "An error occurred while processing the data: " ++ m

/-- Line 679's notice. -/
def demoNotice : String := "Using demo data instead..."

/-- The try-body of lines 183-675 as a sequence of steps, each either
rendering some elements or raising an exception. Running it yields the
elements rendered before the first exception, and that exception if any
(Streamlit renders incrementally, so earlier elements stay on the
page). -/
def runBody : List (Except String (List ViewElem)) → List ViewElem × Option String
  | [] => ([], none)
  | Except.ok es :: rest =>
    let r := runBody rest
    (es ++ r.1, r.2)
  | Except.error m :: _ => ([], some m)

/-- One session pass: run the try-body; on an exception, append the error
banner, the demo notice, and the demo-data rendering (the except block of
lines 677-764). -/
def runSession (body : List (Except String (List ViewElem)))
    (demo : List ViewElem) : List ViewElem :=
  match (runBody body).2 with
  | none => (runBody body).1
  | some m =>
    (runBody body).1 ++
      [ViewElem.message (errorBanner m), ViewElem.message demoNotice] ++ demo

/-- A body that renders one real-data chart, then raises. -/
def C5body : List (Except String (List ViewElem)) :=
  [Except.ok [ViewElem.chart "Attendance Status Distribution"],
   Except.error "boom"]

def C5demo : List ViewElem :=
  [ViewElem.message "Using demo data - upload an Excel file for actual analysis",
   ViewElem.chart "Attendance Status Distribution"]

/-- C5 counterexample: when the exception is raised after a view has
already been rendered from the real uploaded data, that view remains in
the session's output alongside the demo rendering — refuting the claim
that no view in the session pass is rendered from the real data. -/
theorem fallback_mixed_render_counterexample :
    (runBody C5body).2 = some "boom" ∧
    (runBody C5body).1 = [ViewElem.chart "Attendance Status Distribution"] ∧
    ViewElem.chart "Attendance Status Distribution" ∈ runSession C5body C5demo := by
  refine ⟨rfl, rfl, ?_⟩
  decide

/-- C5 amended: any exception raised in the aggregation stage is caught
unconditionally; the session output then consists of whatever was
rendered from the real data before the failure, followed by a single
human-readable error banner, the demo-data notice, and the complete
demo rendering. When the failure precedes all rendering, no real-data
view is shown; otherwise a mixed pass is possible. -/
theorem fallback_appends_banner_notice_demo
    (body : List (Except String (List ViewElem))) (demo : List ViewElem)
    (m : String) (h : (runBody body).2 = some m) :
    runSession body demo =
      (runBody body).1 ++
        [ViewElem.message (errorBanner m), ViewElem.message demoNotice] ++ demo ∧
    ViewElem.message (errorBanner m) ∈ runSession body demo ∧
    ViewElem.message demoNotice ∈ runSession body demo ∧
    ∀ d ∈ demo, d ∈ runSession body demo := by
  have heq : runSession body demo =
      (runBody body).1 ++
        [ViewElem.message (errorBanner m), ViewElem.message demoNotice] ++ demo := by
    unfold runSession
    rw [h]
  refine ⟨heq, ?_, ?_, ?_⟩
  · rw [heq]; simp
  · rw [heq]; simp
  · intro d hd; rw [heq]; simp [hd]

/-- C5 witness: the amended statement at the concrete failing body. -/
theorem fallback_appends_witness :
    runSession C5body C5demo =
      (runBody C5body).1 ++
        [ViewElem.message (errorBanner "boom"), ViewElem.message demoNotice] ++
        C5demo ∧
    ViewElem.message (errorBanner "boom") ∈ runSession C5body C5demo ∧
    ViewElem.message demoNotice ∈ runSession C5body C5demo ∧
    ∀ d ∈ C5demo, d ∈ runSession C5body C5demo :=
  fallback_appends_banner_notice_demo C5body C5demo "boom" rfl

/- ----------------------------------------------------------------
   C6 — generate_synthetic_data (dashboard.py lines 71-167), with
   `random` re-expressed over an explicit seeded generator. The
   attrition and buffer series it also returns (lines 140-150) are
   untouched by any claim and are not modelled.
   ---------------------------------------------------------------- -/

/-- The generator step (a linear congruential generator); each `random`
call consumes the current state as its draw and advances the state. -/
def lcg (g : Nat) : Nat := (1664525 * g + 1013904223) % 4294967296

/-- `random.choice(opts)` given a draw. -/
def pickFrom (opts : List String) (g : Nat) : String :=
  opts.getD (g % opts.length) ""

/-- Lines 77-79 etc.: one `random.choice` per unique EmpID, building the
per-employee dictionary in iteration order. -/
def buildAttr (pick : Nat → String) : List Cell → Nat → List (Cell × String) × Nat
  | [], g => ([], g)
  | e :: es, g =>
    let rest := buildAttr pick es (lcg g)
    ((e, pick g) :: rest.1, rest.2)

/-- `Series.map(dict)`: dictionary lookup, NaN when the key is absent. -/
def lookupAttr : List (Cell × String) → Cell → Cell
  | [], _ => Cell.null
  | (k, v) :: m, e => if k = e then Cell.str v else lookupAttr m e

/-- Line 76: `df["EmpID"].unique()` — first occurrences in order. -/
def uniqueEmps (t : RawTable) : List Cell :=
  uniqFirst (t.rows.map (fun r => getCell r "EmpID"))

/-- Line 105's condition: the shift column is absent or entirely null. -/
def shiftSynthesized (t : RawTable) : Bool :=
  decide ("Auto Shift Name" ∉ t.cols) ||
    t.rows.all (fun r => decide (getCell r "Auto Shift Name" = Cell.null))

/-- Lines 77-81: the skill-level dictionary and the generator state after
building it. -/
def skillMapG (t : RawTable) (g0 : Nat) : List (Cell × String) × Nat :=
  buildAttr (pickFrom ["L1", "L2", "L3", "L4"]) (uniqueEmps t) g0

/-- Lines 84-88: the employment-type dictionary. -/
def empTypeMapG (t : RawTable) (g0 : Nat) : List (Cell × String) × Nat :=
  buildAttr (pickFrom ["Permanent", "Temporary"]) (uniqueEmps t) (skillMapG t g0).2

/-- Lines 91-95: the production-line dictionary
(`f"Line {random.randint(1, 10)}"`). -/
def lineMapG (t : RawTable) (g0 : Nat) : List (Cell × String) × Nat :=
  buildAttr (fun n => "Line " ++ toString (n % 10 + 1)) (uniqueEmps t)
    (empTypeMapG t g0).2

/-- Lines 98-102: the gender dictionary. -/
def genderMapG (t : RawTable) (g0 : Nat) : List (Cell × String) × Nat :=
  buildAttr (pickFrom ["Male", "Female"]) (uniqueEmps t) (lineMapG t g0).2

/-- Lines 105-109: the shift dictionary, built only when the source lacks
shift data. -/
def shiftMapG (t : RawTable) (g0 : Nat) : Option (List (Cell × String)) × Nat :=
  if shiftSynthesized t then
    let b := buildAttr (pickFrom ["Morning", "Afternoon", "Night"]) (uniqueEmps t)
      (genderMapG t g0).2
    (some b.1, b.2)
  else (none, (genderMapG t g0).2)

/-- Lines 81, 88, 95, 102, 109: map each dictionary over the EmpID
column, in source order. -/
def assignAttrs (sk em li ge : List (Cell × String))
    (sh : Option (List (Cell × String))) (r : Row) : Row :=
  match sh with
  | some m =>
    setCell (setCell (setCell (setCell (setCell r
      "Skill Level" (lookupAttr sk (getCell r "EmpID")))
      "Employment Type" (lookupAttr em (getCell r "EmpID")))
      "Production Line" (lookupAttr li (getCell r "EmpID")))
      "Gender" (lookupAttr ge (getCell r "EmpID")))
      "Auto Shift Name" (lookupAttr m (getCell r "EmpID"))
  | none =>
    setCell (setCell (setCell (setCell r
      "Skill Level" (lookupAttr sk (getCell r "EmpID")))
      "Employment Type" (lookupAttr em (getCell r "EmpID")))
      "Production Line" (lookupAttr li (getCell r "EmpID")))
      "Gender" (lookupAttr ge (getCell r "EmpID"))

/-- The source rows after the five per-employee attribute assignments. -/
def augmentedRows (t : RawTable) (g0 : Nat) : List Row :=
  t.rows.map (assignAttrs (skillMapG t g0).1 (empTypeMapG t g0).1
    (lineMapG t g0).1 (genderMapG t g0).1 (shiftMapG t g0).1)

/-- Lines 126-130: the weighted status choice
(P 0.85 / Absent 0.07 / Leave 0.05 / Half Day 0.03). -/
def statusPick (n : Nat) : String :=
  if n % 100 < 85 then "P"
  else if n % 100 < 92 then "Absent"
  else if n % 100 < 97 then "Leave"
  else "Half Day"

/-- Line 116: 180 days counting back from today. -/
def histDates (todayRD : Nat) : List Nat :=
  (List.range 180).map (fun x => todayRD - x)

/-- Lines 133-137: a synthetic history row — the employee's first row
copied, then EmpID, Attendance Date and Final Status overwritten. -/
def mkHistRow (base : Row) (e : Cell) (d : Nat) (s : String) : Row :=
  setCell (setCell (setCell base "EmpID" e) "Attendance Date" (Cell.date d))
    "Final Status" (Cell.str s)

/-- Lines 121-137 for one employee: walk the date range; weekend rows are
skipped with probability 0.8 (one uniform draw, only taken on weekends,
Python's short-circuit `and`); surviving dates draw a weighted status. -/
def empHistory (base : Row) (e : Cell) : List Nat → Nat → List Row × Nat
  | [], g => ([], g)
  | d :: ds, g =>
    if weekdayOf d ≥ 5 then
      if g % 10 < 8 then empHistory base e ds (lcg g)
      else
        let rest := empHistory base e ds (lcg (lcg g))
        (mkHistRow base e d (statusPick (lcg g)) :: rest.1, rest.2)
    else
      let rest := empHistory base e ds (lcg g)
      (mkHistRow base e d (statusPick g) :: rest.1, rest.2)

/-- Line 119: the employee's first row in the augmented table, an empty
dict when the employee has none. -/
def baseRowFor (rows2 : List Row) (e : Cell) : Row :=
  (rows2.filter (fun r => decide (getCell r "EmpID" = e))).headD []

/-- Lines 118-137: the synthetic history across all unique employees. -/
def allHistory (rows2 : List Row) (todayRD : Nat) :
    List Cell → Nat → List Row × Nat
  | [], g => ([], g)
  | e :: es, g =>
    let h1 := empHistory (baseRowFor rows2 e) e (histDates todayRD) g
    let h2 := allHistory rows2 todayRD es h1.2
    (h1.1 ++ h2.1, h2.2)

/-- The columns added by augmentation. -/
def newCols : List Col :=
  ["Skill Level", "Employment Type", "Production Line", "Gender"]

/-- generate_synthetic_data, dashboard.py lines 71-167: per-employee
attribute assignment followed by 180 days of synthetic history, the
result concatenated after the source rows (lines 152-165). `todayRD` is
`datetime.now()`, `g0` the random seed. -/
def generate_synthetic_data (t : RawTable) (todayRD g0 : Nat) : RawTable :=
  { cols := t.cols ++ newCols,
    rows := augmentedRows t g0 ++
      (allHistory (augmentedRows t g0) todayRD (uniqueEmps t) (shiftMapG t g0).2).1 }

/- Attribute-reading lemmas. -/

theorem assignAttrs_empid (sk em li ge : List (Cell × String))
    (sh : Option (List (Cell × String))) (r : Row) :
    getCell (assignAttrs sk em li ge sh r) "EmpID" = getCell r "EmpID" := by
  cases sh with
  | none =>
    unfold assignAttrs
    rw [getCell_setCell_ne _ _ (by decide), getCell_setCell_ne _ _ (by decide),
      getCell_setCell_ne _ _ (by decide), getCell_setCell_ne _ _ (by decide)]
  | some m =>
    unfold assignAttrs
    rw [getCell_setCell_ne _ _ (by decide), getCell_setCell_ne _ _ (by decide),
      getCell_setCell_ne _ _ (by decide), getCell_setCell_ne _ _ (by decide),
      getCell_setCell_ne _ _ (by decide)]

theorem assignAttrs_skill (sk em li ge : List (Cell × String))
    (sh : Option (List (Cell × String))) (r : Row) :
    getCell (assignAttrs sk em li ge sh r) "Skill Level" =
      lookupAttr sk (getCell r "EmpID") := by
  cases sh with
  | none =>
    unfold assignAttrs
    rw [getCell_setCell_ne _ _ (by decide), getCell_setCell_ne _ _ (by decide),
      getCell_setCell_ne _ _ (by decide), getCell_setCell_same]
  | some m =>
    unfold assignAttrs
    rw [getCell_setCell_ne _ _ (by decide), getCell_setCell_ne _ _ (by decide),
      getCell_setCell_ne _ _ (by decide), getCell_setCell_ne _ _ (by decide),
      getCell_setCell_same]

theorem assignAttrs_empType (sk em li ge : List (Cell × String))
    (sh : Option (List (Cell × String))) (r : Row) :
    getCell (assignAttrs sk em li ge sh r) "Employment Type" =
      lookupAttr em (getCell r "EmpID") := by
  cases sh with
  | none =>
    unfold assignAttrs
    rw [getCell_setCell_ne _ _ (by decide), getCell_setCell_ne _ _ (by decide),
      getCell_setCell_same]
  | some m =>
    unfold assignAttrs
    rw [getCell_setCell_ne _ _ (by decide), getCell_setCell_ne _ _ (by decide),
      getCell_setCell_ne _ _ (by decide), getCell_setCell_same]

theorem assignAttrs_line (sk em li ge : List (Cell × String))
    (sh : Option (List (Cell × String))) (r : Row) :
    getCell (assignAttrs sk em li ge sh r) "Production Line" =
      lookupAttr li (getCell r "EmpID") := by
  cases sh with
  | none =>
    unfold assignAttrs
    rw [getCell_setCell_ne _ _ (by decide), getCell_setCell_same]
  | some m =>
    unfold assignAttrs
    rw [getCell_setCell_ne _ _ (by decide), getCell_setCell_ne _ _ (by decide),
      getCell_setCell_same]

theorem assignAttrs_gender (sk em li ge : List (Cell × String))
    (sh : Option (List (Cell × String))) (r : Row) :
    getCell (assignAttrs sk em li ge sh r) "Gender" =
      lookupAttr ge (getCell r "EmpID") := by
  cases sh with
  | none =>
    unfold assignAttrs
    rw [getCell_setCell_same]
  | some m =>
    unfold assignAttrs
    rw [getCell_setCell_ne _ _ (by decide), getCell_setCell_same]

theorem assignAttrs_shift (sk em li ge m : List (Cell × String)) (r : Row) :
    getCell (assignAttrs sk em li ge (some m) r) "Auto Shift Name" =
      lookupAttr m (getCell r "EmpID") := by
  unfold assignAttrs
  rw [getCell_setCell_same]

theorem mkHistRow_empid (base : Row) (e : Cell) (d : Nat) (s : String) :
    getCell (mkHistRow base e d s) "EmpID" = e := by
  unfold mkHistRow
  rw [getCell_setCell_ne _ _ (by decide), getCell_setCell_ne _ _ (by decide),
    getCell_setCell_same]

theorem mkHistRow_other (base : Row) (e : Cell) (d : Nat) (s : String)
    (c : Col) (h1 : "Final Status" ≠ c) (h2 : "Attendance Date" ≠ c)
    (h3 : "EmpID" ≠ c) :
    getCell (mkHistRow base e d s) c = getCell base c := by
  unfold mkHistRow
  rw [getCell_setCell_ne _ _ h1, getCell_setCell_ne _ _ h2,
    getCell_setCell_ne _ _ h3]

/- Shape lemmas for the synthetic history. -/

theorem mem_empHistory (base : Row) (e : Cell) :
    ∀ (ds : List Nat) (g : Nat) (r : Row), r ∈ (empHistory base e ds g).1 →
      ∃ d s, r = mkHistRow base e d s := by
  intro ds
  induction ds with
  | nil => intro g r h; simp [empHistory] at h
  | cons d ds ih =>
    intro g r h
    unfold empHistory at h
    by_cases h5 : weekdayOf d ≥ 5
    · rw [if_pos h5] at h
      by_cases h8 : g % 10 < 8
      · rw [if_pos h8] at h
        exact ih _ r h
      · rw [if_neg h8] at h
        rcases List.mem_cons.mp h with h | h
        · exact ⟨d, statusPick (lcg g), h⟩
        · exact ih _ r h
    · rw [if_neg h5] at h
      rcases List.mem_cons.mp h with h | h
      · exact ⟨d, statusPick g, h⟩
      · exact ih _ r h

theorem mem_allHistory (rows2 : List Row) (todayRD : Nat) :
    ∀ (es : List Cell) (g : Nat) (r : Row),
      r ∈ (allHistory rows2 todayRD es g).1 →
      ∃ e ∈ es, ∃ d s, r = mkHistRow (baseRowFor rows2 e) e d s := by
  intro es
  induction es with
  | nil => intro g r h; simp [allHistory] at h
  | cons e es ih =>
    intro g r h
    unfold allHistory at h
    rcases List.mem_append.mp h with h | h
    · obtain ⟨d, s, rfl⟩ := mem_empHistory _ _ _ _ _ h
      exact ⟨e, List.mem_cons_self e es, d, s, rfl⟩
    · obtain ⟨e', he', hrest⟩ := ih _ r h
      exact ⟨e', List.mem_cons_of_mem e he', hrest⟩

theorem baseRowFor_spec (rows2 : List Row) (e : Cell)
    (hne : rows2.filter (fun r => decide (getCell r "EmpID" = e)) ≠ []) :
    baseRowFor rows2 e ∈ rows2 ∧ getCell (baseRowFor rows2 e) "EmpID" = e := by
  unfold baseRowFor
  cases hf : rows2.filter (fun r => decide (getCell r "EmpID" = e)) with
  | nil => exact absurd hf hne
  | cons x xs =>
    have hx : x ∈ rows2.filter (fun r => decide (getCell r "EmpID" = e)) := by
      rw [hf]; exact List.mem_cons_self x xs
    have hx' := List.mem_filter.mp hx
    exact ⟨hx'.1, by simpa using hx'.2⟩

theorem uniqueEmps_filter_ne_nil (t : RawTable) (g0 : Nat) (e : Cell)
    (he : e ∈ uniqueEmps t) :
    (augmentedRows t g0).filter (fun r => decide (getCell r "EmpID" = e)) ≠ [] := by
  have he' : e ∈ t.rows.map (fun r => getCell r "EmpID") :=
    mem_of_mem_uniqFirst he
  simp only [List.mem_map] at he'
  obtain ⟨r0, hr0, rfl⟩ := he'
  intro hnil
  have hmem : assignAttrs (skillMapG t g0).1 (empTypeMapG t g0).1
      (lineMapG t g0).1 (genderMapG t g0).1 (shiftMapG t g0).1 r0
      ∈ augmentedRows t g0 := List.mem_map_of_mem _ hr0
  have hkeep : assignAttrs (skillMapG t g0).1 (empTypeMapG t g0).1
      (lineMapG t g0).1 (genderMapG t g0).1 (shiftMapG t g0).1 r0
      ∈ (augmentedRows t g0).filter
        (fun r => decide (getCell r "EmpID" = getCell r0 "EmpID")) :=
    List.mem_filter.mpr ⟨hmem, by simp [assignAttrs_empid]⟩
  rw [hnil] at hkeep
  cases hkeep

/-- Every augmented or synthetic-history row reads each synthetic
attribute as the dictionary lookup at its own EmpID. -/
theorem combined_attr_spec (t : RawTable) (todayRD g0 : Nat) :
    ∀ r ∈ (generate_synthetic_data t todayRD g0).rows,
      getCell r "Skill Level" = lookupAttr (skillMapG t g0).1 (getCell r "EmpID") ∧
      getCell r "Employment Type" =
        lookupAttr (empTypeMapG t g0).1 (getCell r "EmpID") ∧
      getCell r "Production Line" =
        lookupAttr (lineMapG t g0).1 (getCell r "EmpID") ∧
      getCell r "Gender" = lookupAttr (genderMapG t g0).1 (getCell r "EmpID") ∧
      (∀ m, (shiftMapG t g0).1 = some m →
        getCell r "Auto Shift Name" = lookupAttr m (getCell r "EmpID")) := by
  intro r hr
  have hr' : r ∈ augmentedRows t g0 ∨
      r ∈ (allHistory (augmentedRows t g0) todayRD (uniqueEmps t)
        (shiftMapG t g0).2).1 := by
    simpa [generate_synthetic_data] using List.mem_append.mp hr
  rcases hr' with hr' | hr'
  · simp only [augmentedRows, List.mem_map] at hr'
    obtain ⟨r0, _, rfl⟩ := hr'
    refine ⟨?_, ?_, ?_, ?_, ?_⟩
    · rw [assignAttrs_skill, assignAttrs_empid]
    · rw [assignAttrs_empType, assignAttrs_empid]
    · rw [assignAttrs_line, assignAttrs_empid]
    · rw [assignAttrs_gender, assignAttrs_empid]
    · intro m hm
      rw [hm, assignAttrs_shift, assignAttrs_empid]
  · obtain ⟨e, he, d, s, rfl⟩ := mem_allHistory _ _ _ _ _ hr'
    obtain ⟨hbmem, hbid⟩ := baseRowFor_spec (augmentedRows t g0) e
      (uniqueEmps_filter_ne_nil t g0 e he)
    have hB : ∃ r0, assignAttrs (skillMapG t g0).1 (empTypeMapG t g0).1
        (lineMapG t g0).1 (genderMapG t g0).1 (shiftMapG t g0).1 r0
        = baseRowFor (augmentedRows t g0) e := by
      unfold augmentedRows at hbmem
      simp only [List.mem_map] at hbmem
      obtain ⟨r0, _, hb⟩ := hbmem
      exact ⟨r0, hb⟩
    obtain ⟨r0, hb⟩ := hB
    have hid := mkHistRow_empid (baseRowFor (augmentedRows t g0) e) e d s
    refine ⟨?_, ?_, ?_, ?_, ?_⟩
    · rw [mkHistRow_other _ _ _ _ _ (by decide) (by decide) (by decide), hid,
        ← hb, assignAttrs_skill]
      rw [← hbid, ← hb, assignAttrs_empid]
    · rw [mkHistRow_other _ _ _ _ _ (by decide) (by decide) (by decide), hid,
        ← hb, assignAttrs_empType]
      rw [← hbid, ← hb, assignAttrs_empid]
    · rw [mkHistRow_other _ _ _ _ _ (by decide) (by decide) (by decide), hid,
        ← hb, assignAttrs_line]
      rw [← hbid, ← hb, assignAttrs_empid]
    · rw [mkHistRow_other _ _ _ _ _ (by decide) (by decide) (by decide), hid,
        ← hb, assignAttrs_gender]
      rw [← hbid, ← hb, assignAttrs_empid]
    · intro m hm
      rw [mkHistRow_other _ _ _ _ _ (by decide) (by decide) (by decide), hid,
        ← hb, hm, assignAttrs_shift]
      rw [← hbid, ← hb, assignAttrs_empid]

/-- C6: within one augmentation pass, any two rows of the combined output
carrying the same EmpID agree on Skill Level, Employment Type, Production
Line and Gender, and — when the shift column was synthesized — on
Auto Shift Name: each attribute is drawn once per unique EmpID, never
re-randomized per row. -/
theorem synthetic_attrs_stable_per_empid (t : RawTable) (todayRD g0 : Nat)
    (r1 r2 : Row)
    (h1 : r1 ∈ (generate_synthetic_data t todayRD g0).rows)
    (h2 : r2 ∈ (generate_synthetic_data t todayRD g0).rows)
    (he : getCell r1 "EmpID" = getCell r2 "EmpID") :
    getCell r1 "Skill Level" = getCell r2 "Skill Level" ∧
    getCell r1 "Employment Type" = getCell r2 "Employment Type" ∧
    getCell r1 "Production Line" = getCell r2 "Production Line" ∧
    getCell r1 "Gender" = getCell r2 "Gender" ∧
    (shiftSynthesized t = true →
      getCell r1 "Auto Shift Name" = getCell r2 "Auto Shift Name") := by
  obtain ⟨hs1, he1, hl1, hg1, hsh1⟩ := combined_attr_spec t todayRD g0 r1 h1
  obtain ⟨hs2, he2, hl2, hg2, hsh2⟩ := combined_attr_spec t todayRD g0 r2 h2
  refine ⟨?_, ?_, ?_, ?_, ?_⟩
  · rw [hs1, hs2, he]
  · rw [he1, he2, he]
  · rw [hl1, hl2, he]
  · rw [hg1, hg2, he]
  · intro hsyn
    have hm : (shiftMapG t g0).1 =
        some (buildAttr (pickFrom ["Morning", "Afternoon", "Night"])
          (uniqueEmps t) (genderMapG t g0).2).1 := by
      unfold shiftMapG
      rw [if_pos hsyn]
    rw [hsh1 _ hm, hsh2 _ hm, he]

/-- A one-row source table for the witness. -/
def C6table : RawTable :=
  { cols := ["EmpID", "Attendance Date", "Final Status"],
    rows := [[("EmpID", Cell.str "E1"), ("Attendance Date", Cell.date 739000),
              ("Final Status", Cell.str "P")]] }

/-- The first combined output row (the augmented source row). -/
def C6r1 : Row := (generate_synthetic_data C6table 5 7).rows.headD []

/-- The second combined output row (the first synthetic-history row). -/
def C6r2 : Row := ((generate_synthetic_data C6table 5 7).rows.drop 1).headD []

/-- C6 witness: the stability statement at a concrete table, seed and
day, comparing the augmented source row against a synthetic-history row
of the same employee. -/
theorem synthetic_attrs_stable_witness :
    getCell C6r1 "Skill Level" = getCell C6r2 "Skill Level" ∧
    getCell C6r1 "Employment Type" = getCell C6r2 "Employment Type" ∧
    getCell C6r1 "Production Line" = getCell C6r2 "Production Line" ∧
    getCell C6r1 "Gender" = getCell C6r2 "Gender" ∧
    (shiftSynthesized C6table = true →
      getCell C6r1 "Auto Shift Name" = getCell C6r2 "Auto Shift Name") :=
  synthetic_attrs_stable_per_empid C6table 5 7 C6r1 C6r2
    (by decide) (by decide) (by decide)

end StudentViz
